import Mathlib

/-!
Verification of the chat-moderator bot (`src/main.py`) against its
specification.  The Python source is shallowly embedded: each relevant
Python function becomes an executable Lean definition operating on
`List Char` / `String` / `Int` data, Python exceptions become `Except`
values, and the Telegram transport's fallible calls become explicit
result parameters.  Character classes (`\w`, `\s`) and case folding are
modelled at the ASCII level, which covers every phrase and message the
development reasons about.
-/

/-- ASCII word character, the class `[a-zA-Z0-9_]` used by the source's
regular expressions (`\w`, `\b`, and the username character class). -/
def isWordChar (c : Char) : Bool :=
  (('a' ≤ c && c ≤ 'z') || ('A' ≤ c && c ≤ 'Z') || ('0' ≤ c && c ≤ '9') || c = '_')

/-- Whitespace as recognised by Python's `str.strip` / regex `\s`,
restricted to ASCII. -/
def isWS (c : Char) : Bool :=
  c = ' ' || c = '\t' || c = '\n' || c = '\r' || c = '\x0b' || c = '\x0c'

/-- ASCII lower-casing of one character (the effect of `str.lower` and of
the `(?i)` flag on the texts considered here). -/
def lowerChar (c : Char) : Char :=
  if 'A' ≤ c && c ≤ 'Z' then Char.ofNat (c.toNat + 32) else c

/-- Lower-case a character list. -/
def lcList (l : List Char) : List Char := l.map lowerChar

/-- Python `str.strip`: drop whitespace from both ends. -/
def trimChars (l : List Char) : List Char :=
  ((l.dropWhile isWS).reverse.dropWhile isWS).reverse

/-- `str.strip` on a `String`. -/
def pyStrip (s : String) : String := ⟨trimChars s.data⟩

/-- `str.lower` on a `String` (ASCII). -/
def pyLower (s : String) : String := ⟨lcList s.data⟩

/-- The character at index `i`, if any. -/
def charAt (l : List Char) (i : Nat) : Option Char := l.get? i

/-- Whether index `i` of `l` holds a word character (out of range counts
as non-word, matching how `\b` treats the ends of the subject string). -/
def wordCharAt (l : List Char) (i : Nat) : Bool :=
  match charAt l i with
  | some c => isWordChar c
  | none => false

/-- The regex word boundary `\b` at position `i` of `l`: the wordness of
the character before the position differs from the wordness at it. -/
def boundaryAt (l : List Char) (i : Nat) : Bool :=
  (if i = 0 then false else wordCharAt l (i - 1)) != wordCharAt l i

/-- The pattern `pat` occurs literally in `l` starting at position `i`. -/
def occursAt (pat l : List Char) (i : Nat) : Bool :=
  (l.drop i).take pat.length == pat

/-- Literal (substring) search: `pat` occurs somewhere in `l`. -/
def isSubstrOf (pat l : List Char) : Bool :=
  (List.range (l.length + 1)).any (occursAt pat l)

/-- `\b pat \b` search: a literal occurrence flanked by word boundaries. -/
def wordOccursIn (pat l : List Char) : Bool :=
  (List.range (l.length + 1)).any
    (fun i => occursAt pat l i && boundaryAt l i && boundaryAt l (i + pat.length))

/-- One alternative of the banned-words regex built by
`build_badwords_regex`: a phrase containing a space or a hyphen is kept
as an escaped literal, any other phrase is wrapped in `\b...\b`.  With
the `(?i)` flag, searching with that alternative amounts to the
following test on the lower-cased phrase and text. -/
def phraseHits (w : String) (textLower : List Char) : Bool :=
  if w.data.contains ' ' || w.data.contains '-' then
    isSubstrOf (lcList w.data) textLower
  else
    wordOccursIn (lcList w.data) textLower

/-- `build_badwords_regex`, part 1: the list of regex alternatives, one
per configured word after stripping, empty entries skipped. -/
def buildParts (words : List String) : List String :=
  (words.map pyStrip).filter (fun w => w ≠ "")

/-- Whether `build_badwords_regex` returns a compiled regex at all
(`None` when no non-empty phrase survives stripping). -/
def badwordsRegexSome (words : List String) : Bool :=
  buildParts words ≠ []

/-- `BADWORDS_RE.search(txt)` as a boolean: some alternative of the
compiled alternation matches somewhere in the text, case-insensitively. -/
def badwordsSearch (words : List String) (txt : String) : Bool :=
  (buildParts words).any (fun w => phraseHits w (lcList txt.data))

/-- The URL alternatives of `URL_RE`, lower-cased (the regex carries
`re.IGNORECASE`); each must be followed by at least one `\S` character. -/
def urlHeads : List (List Char) :=
  ["http://".data, "https://".data, "t.me/".data, "telegram.me/".data,
   "telegram.org/".data]

/-- `URL_RE.search(txt)`: some alternative head occurs (case-insensitively)
with a non-whitespace character right after it. -/
def urlSearch (txt : String) : Bool :=
  let tl := lcList txt.data
  (List.range (tl.length + 1)).any (fun i =>
    urlHeads.any (fun h =>
      occursAt h tl i &&
        (match charAt tl (i + h.length) with
         | some c => !isWS c
         | none => false)))

/-- Count of consecutive word characters of `l` starting at position `i`. -/
def wordRunFrom (l : List Char) (i : Nat) : Nat :=
  ((l.drop i).takeWhile isWordChar).length

/-- `USERNAME_RE.search(txt)`: an `@` not preceded by a word character and
followed by at least five characters from `[a-zA-Z0-9_]` (the trailing
`\b` of the regex is automatic after a maximal word-character run). -/
def usernameSearch (txt : String) : Bool :=
  let tl := txt.data
  (List.range (tl.length + 1)).any (fun i =>
    charAt tl i == some '@' &&
      !(if i = 0 then false else wordCharAt tl (i - 1)) &&
      decide (5 ≤ wordRunFrom tl (i + 1)))

/-- The rich-text annotation kinds the gate inspects (`e.type`). -/
inductive EntityType where
  | url
  | textLink
  | mention
  | otherKind
deriving DecidableEq, Repr

/-- The slice of an incoming Telegram message the moderation code reads.
Optional sender fields mirror aiogram's `Optional` attributes; media
kinds are the four flags tested by the gate. -/
structure Msg where
  chatId : Int
  fromUser : Option Int
  senderChat : Option Int
  text : Option String
  caption : Option String
  entities : List EntityType
  captionEntities : List EntityType
  hasAudio : Bool
  hasVideo : Bool
  hasVoice : Bool
  hasVideoNote : Bool
deriving DecidableEq, Repr

/-- Python's `a or b` on strings/None: an empty or absent string falls
through to the alternative. -/
def pyOrStr (a : Option String) (b : String) : String :=
  match a with
  | some s => if s = "" then b else s
  | none => b

/-- `text_of(msg)`: `(msg.text or msg.caption or "").strip()`. -/
def text_of (m : Msg) : String :=
  pyStrip (pyOrStr m.text (pyOrStr m.caption ""))

/-- Outcome of the transport's `get_chat_member` role lookup: either an
exception or a status string. -/
inductive RoleLookup where
  | err
  | ok (status : String)
deriving DecidableEq, Repr

/-- Python truthiness of an optional integer (`if sender_chat_id`,
`if not user_id`, `if inviter_id`): present and non-zero. -/
def truthyInt (o : Option Int) : Bool :=
  match o with
  | some x => x ≠ 0
  | none => false

/-- `is_chat_admin(bot, chat_id, user_id, sender_chat_id)`.  The
transport call is the `tr` parameter; an anonymous-admin post (truthy
`sender_chat_id` equal to `chat_id`) is exempt without consulting it, a
missing/zero `user_id` is not exempt, and a lookup failure yields
`false` (the `except` branch), so the function is total: it never
raises. -/
def is_chat_admin (chatId : Int) (userId : Option Int) (senderChatId : Option Int)
    (tr : RoleLookup) : Bool :=
  if truthyInt senderChatId && senderChatId == some chatId then true
  else if !truthyInt userId then false
  else
    match tr with
    | .err => false
    | .ok status => status == "administrator" || status == "creator"

/-- The moderation verdict for one message. -/
inductive Verdict where
  | allow
  | delete
  | deleteAndBan
deriving DecidableEq, Repr

/-- Rule 1 of the gate: audio / video / voice / video-note content. -/
def mediaRule (m : Msg) : Bool :=
  m.hasAudio || m.hasVideo || m.hasVoice || m.hasVideoNote

/-- Rule 2: non-empty effective text of exactly one character. -/
def degenerateRule (txt : String) : Bool :=
  txt ≠ "" && txt.length == 1

/-- The concatenation `(message.entities or []) + (message.caption_entities or [])`. -/
def allEntities (m : Msg) : List EntityType :=
  m.entities ++ m.captionEntities

/-- Rule 3: a `url` / `text_link` annotation, or a bare URL in the text. -/
def linkRule (m : Msg) (txt : String) : Bool :=
  (allEntities m).any (fun e => e == .url || e == .textLink) ||
    (txt ≠ "" && urlSearch txt)

/-- Rule 4: a `mention` annotation, or an `@handle` pattern in the text. -/
def mentionRule (m : Msg) (txt : String) : Bool :=
  (allEntities m).any (fun e => e == .mention) || (txt ≠ "" && usernameSearch txt)

/-- Rule 5: `BADWORDS_RE and txt and BADWORDS_RE.search(txt)`. -/
def badwordRule (words : List String) (txt : String) : Bool :=
  badwordsRegexSome words && txt ≠ "" && badwordsSearch words txt

/-- The decision part of `moderation_gate`: the verdict reached by the
if/return chain, given the exemption check's outcome.  Falling off the
end of the handler is `allow`. -/
def moderationVerdict (words : List String) (exempt : Bool) (m : Msg) : Verdict :=
  if exempt then .allow
  else if mediaRule m then .delete
  else if degenerateRule (text_of m) then .delete
  else if linkRule m (text_of m) then .delete
  else if mentionRule m (text_of m) then .delete
  else if badwordRule words (text_of m) then .deleteAndBan
  else .allow

/-- `moderation_gate`'s verdict with the exemption computed by
`is_chat_admin` from the message's sender fields and the transport
outcome `tr`. -/
def gateVerdict (words : List String) (m : Msg) (tr : RoleLookup) : Verdict :=
  moderationVerdict words (is_chat_admin m.chatId m.fromUser m.senderChat tr) m

/-- A transport side effect attempted by the gate. -/
inductive Act where
  | del
  | ban (userId : Int)
deriving DecidableEq, Repr

/-- Executing the gate's verdict: the list of transport calls attempted
and whether an exception escapes the handler.  `delete_safely` and
`ban_safely` swallow their own failures (`dFails` / `bFails` are the
transport outcomes), but the ban call's argument `message.from_user.id`
is evaluated unguarded: with no `from_user` it raises before the ban is
attempted. -/
def execVerdict (v : Verdict) (fromUser : Option Int) (dFails bFails : Bool) :
    List Act × Bool :=
  match v with
  | .allow => ([], false)
  | .delete => ([.del], false)
  | .deleteAndBan =>
    match fromUser with
    | some uid => ([.del, .ban uid], false)
    | none => ([.del], true)

/-- Full run of `moderation_gate` on one message: verdict plus the
attempted side effects and whether an exception escapes. -/
def gateRun (words : List String) (m : Msg) (tr : RoleLookup) (dFails bFails : Bool) :
    List Act × Bool :=
  execVerdict (gateVerdict words m tr) m.fromUser dFails bFails

/-- Lexicographic comparison of character lists by code point, the order
Python's `sorted` uses on these ASCII strings. -/
def charListLe : List Char → List Char → Bool
  | [], _ => true
  | _ :: _, [] => false
  | a :: as, b :: bs => if a = b then charListLe as bs else decide (a.toNat < b.toNat)

/-- `strLe a b` iff `a` sorts no later than `b`. -/
def strLe (a b : String) : Bool := charListLe a.data b.data

/-- Insert a string into a sorted list (helper for `sortStrs`). -/
def insSorted (x : String) : List String → List String
  | [] => [x]
  | y :: ys => if strLe x y then x :: y :: ys else y :: insSorted x ys

/-- Insertion sort of a list of strings. -/
def sortStrs (l : List String) : List String := l.foldr insSorted []

/-- Python `sorted(set(l))`: deduplicate, then sort. -/
def pySortedSet (l : List String) : List String := sortStrs l.dedup

/-- Split a character list at every character satisfying `p` (adjacent
delimiters produce empty groups, later discarded by the caller's
filter, so runs of delimiters behave as `re.split(r"[,\n;]+", ...)`). -/
def splitChars (p : Char → Bool) : List Char → List (List Char)
  | [] => [[]]
  | c :: rest =>
    if p c then [] :: splitChars p rest
    else
      match splitChars p rest with
      | [] => [[c]]
      | g :: gs => (c :: g) :: gs

/-- `parse_badword_list(raw)`: strip; empty input gives nothing; input
containing a newline, comma or semicolon is split on those delimiters,
each token stripped, lower-cased and kept if non-empty; otherwise the
whole (stripped) input is one lower-cased phrase. -/
def parse_badword_list (raw : String) : List String :=
  let raw' := pyStrip raw
  if raw' = "" then []
  else if raw'.data.any (fun c => c = '\n' || c = ',' || c = ';') then
    ((splitChars (fun c => c = '\n' || c = ',' || c = ';') raw'.data).map
        (fun p => pyLower (pyStrip ⟨p⟩))).filter (fun p => p ≠ "")
  else [pyLower raw']

/-- Core of `cmd_add_badword` once a non-empty word list is in hand:
the new stored list `sorted(before.union(words))` and the reply payload
`added = sorted(set(words) - before)`; the handler replies "nothing
new" exactly when `added` is empty. -/
def addBadwords (before : List String) (words : List String) :
    List String × List String :=
  (pySortedSet (before ++ words),
   pySortedSet (words.filter (fun w => !before.contains w)))

/-- Core of `cmd_remove_badword`: `removed = sorted(before ∩ words)`;
when it is empty the handler replies that nothing was in the list and
returns before mutating, otherwise it stores
`sorted(before.difference(words))`. -/
def removeBadwords (before : List String) (words : List String) :
    List String × List String :=
  if pySortedSet (before.filter (fun b => words.contains b)) = [] then (before, [])
  else (pySortedSet (before.filter (fun b => !words.contains b)),
    pySortedSet (before.filter (fun b => words.contains b)))

/-- Python `int(s)`: optional surrounding whitespace, an optional sign,
then at least one digit (numeric underscores are not modelled); `none`
models the `ValueError` raised on any other input. -/
def pyInt (s : String) : Option Int :=
  let t := trimChars s.data
  let core := match t with
    | '+' :: rest => (rest, (1 : Int))
    | '-' :: rest => (rest, (-1 : Int))
    | _ => (t, (1 : Int))
  match core with
  | (digits, sign) =>
    if digits ≠ [] && digits.all Char.isDigit then
      some (sign * (digits.foldl (fun n c => n * 10 + (c.toNat - '0'.toNat)) 0 : Nat))
    else none

/-- The JSON value found under `newbie_mute_minutes` in a persisted
document: an integer, some other JSON value, or absent (`Option`). -/
inductive JVal where
  | jint (n : Int)
  | jother
deriving DecidableEq, Repr

/-- `load_config`'s handling of `newbie_mute_minutes`: default 1 when
absent, replaced by 1 when not an `int` or negative, kept otherwise. -/
def loadNm (v : Option JVal) : Int :=
  match v with
  | some (.jint n) => if n < 0 then 1 else n
  | some .jother => 1
  | none => 1

/-- `cmd_set_newbie_mute`'s mutation of the field: parse the stripped
argument as an integer (a `ValueError` leaves the config untouched),
then clamp with `max(0, min(1440, minutes))`. -/
def setNm (cur : Int) (arg : String) : Int :=
  match pyInt (pyStrip arg) with
  | some m => max 0 (min 1440 m)
  | none => cur

/-- Values of `newbie_mute_minutes` reachable in a process: the value
produced by `load_config` from any persisted document, followed by any
sequence of `set_newbie_mute` commands. -/
inductive NmReachable : Int → Prop where
  | load (v : Option JVal) : NmReachable (loadNm v)
  | set (cur : Int) (arg : String) (h : NmReachable cur) : NmReachable (setNm cur arg)

/-- `_parse_hhmm(s)`: strip, split on `":"` into exactly two fields,
parse both as integers and range-check hour and minute; `none` models
the `ValueError` / unpacking error raised otherwise. -/
def parseHHMM (s : String) : Option (Nat × Nat) :=
  match splitChars (fun c => c = ':') (trimChars s.data) with
  | [hh, mm] =>
    match pyInt ⟨hh⟩, pyInt ⟨mm⟩ with
    | some h, some m =>
      if 0 ≤ h && h ≤ 23 && 0 ≤ m && m ≤ 59 then some (h.toNat, m.toNat) else none
    | _, _ => none
  | _ => none

/-- The `schedule` section of the configuration as the process holds it:
`enabled`, the two wall-clock strings, and the zone name.  `load_config`
fills these from the persisted document without validating the time
strings or the zone. -/
structure Sched where
  enabled : Bool
  openTime : String
  closeTime : String
  tz : String
deriving DecidableEq, Repr

/-- The recurring open/close timer pair armed by `_reschedule_jobs`:
the two cron trigger times and the timezone they are interpreted in. -/
structure JobPair where
  openH : Nat
  openM : Nat
  closeH : Nat
  closeM : Nat
  tzName : String
deriving DecidableEq, Repr

/-- `_get_tz()`: the configured zone when the parameter `tzOK` (the
zone database) accepts it, else the `Europe/Moscow` fallback; the
`except` branch makes it total. -/
def getTz (tzOK : String → Bool) (s : Sched) : String :=
  if tzOK s.tz then s.tz else "Europe/Moscow"

/-- `_reschedule_jobs`: tear down and, when the schedule is enabled,
re-arm both timers as a pair.  A parse failure of either time string is
caught and replaces BOTH pairs with the defaults 10:00 / 19:00; the
timezone falls back independently via `getTz`.  The function is total:
no branch raises. -/
def rescheduleJobs (tzOK : String → Bool) (s : Sched) : Option JobPair :=
  if !s.enabled then none
  else
    let tz := getTz tzOK s
    match parseHHMM s.openTime, parseHHMM s.closeTime with
    | some (oh, om), some (ch, cm) => some ⟨oh, om, ch, cm, tz⟩
    | _, _ => some ⟨10, 0, 19, 0, tz⟩

/-- The schedule-mutating commands of the command layer. -/
inductive SchedOp where
  | setTimes (openArg closeArg : String)
  | setEnabled (b : Bool)
  | setTz (arg : String)
deriving Repr

/-- `cmd_schedule_tz`'s effective argument: stripped, defaulting to
`Europe/Moscow` when empty. -/
def schedTzArg (arg : String) : String :=
  if pyStrip arg = "" then "Europe/Moscow" else pyStrip arg

/-- One schedule command applied to the configuration:
`/schedule_set` stores both strings only after `_parse_hhmm` accepts
both (else it replies with an error and changes nothing),
`/schedule_enable` / `/schedule_disable` flip the flag, and
`/schedule_tz` stores the zone only when `ZoneInfo` accepts it. -/
def applySchedOp (tzOK : String → Bool) (s : Sched) : SchedOp → Sched
  | .setTimes o c =>
    match parseHHMM o, parseHHMM c with
    | some _, some _ => { s with openTime := o, closeTime := c }
    | _, _ => s
  | .setEnabled b => { s with enabled := b }
  | .setTz a => if tzOK (schedTzArg a) then { s with tz := schedTzArg a } else s

/-- A process run: the schedule loaded at startup followed by any
sequence of schedule commands. -/
def runSchedOps (tzOK : String → Bool) (init : Sched) (ops : List SchedOp) : Sched :=
  ops.foldl (applySchedOp tzOK) init

/-- Whether a command is a `/schedule_set` whose two time strings are
both valid (the only way the process ever acquires validated times). -/
def validSetTimes : SchedOp → Bool
  | .setTimes o c => (parseHHMM o).isSome && (parseHHMM c).isSome
  | _ => false

/-- The subset of `aiogram.types.ChatPermissions` fields the source
sets; `none` is an unset (`None`) field. -/
structure ChatPerms where
  canSendMessages : Option Bool := none
  canSendMediaMessages : Option Bool := none
  canSendPolls : Option Bool := none
  canSendOtherMessages : Option Bool := none
  canAddWebPagePreviews : Option Bool := none
  canChangeInfo : Option Bool := none
  canInviteUsers : Option Bool := none
  canPinMessages : Option Bool := none
deriving DecidableEq, Repr

/-- `MUTED_PERMS`: the RESTRICTED profile. -/
def MUTED_PERMS : ChatPerms :=
  { canSendMessages := some false
    canSendMediaMessages := some false
    canSendPolls := some false
    canSendOtherMessages := some false
    canAddWebPagePreviews := some false
    canChangeInfo := some false
    canInviteUsers := some true
    canPinMessages := some false }

/-- `UNMUTED_PERMS`: the OPEN profile. -/
def UNMUTED_PERMS : ChatPerms :=
  { canSendMessages := some true
    canSendMediaMessages := some true
    canInviteUsers := some true
    canPinMessages := some false
    canChangeInfo := some false }

/-- A transport side effect attempted by the join-event handler for one
joined identity. -/
inductive JoinAct where
  | banUser (userId : Int)
  | restrictUser (userId : Int) (perms : ChatPerms) (untilEpoch : Int)
deriving DecidableEq, Repr

/-- The per-identity body of `on_new_members`' loop: a bot is banned
(and its truthy inviter banned too); a human is left alone when
`newbie_mute_minutes` is not positive; otherwise a role lookup that
SUCCEEDS with administrator/creator skips the member, while a failed
lookup is swallowed (`except: pass`) and the member is restricted with
`MUTED_PERMS` until `now + minutes` (epoch seconds). -/
def processNewMember (newbieMinutes : Int) (inviterId : Option Int) (now : Int)
    (role : RoleLookup) (memberId : Int) (memberIsBot : Bool) : List JoinAct :=
  if memberIsBot then
    .banUser memberId ::
      (match inviterId with
       | some i => if i ≠ 0 then [.banUser i] else []
       | none => [])
  else if newbieMinutes > 0 then
    match role with
    | .ok status =>
      if status == "administrator" || status == "creator" then []
      else [.restrictUser memberId MUTED_PERMS (now + newbieMinutes * 60)]
    | .err => [.restrictUser memberId MUTED_PERMS (now + newbieMinutes * 60)]
  else []

/-- Membership is preserved by sorted insertion. -/
theorem mem_insSorted (x a : String) (l : List String) :
    a ∈ insSorted x l ↔ a = x ∨ a ∈ l := by
  induction l with
  | nil => simp [insSorted]
  | cons y ys ih =>
    by_cases h : strLe x y = true
    · simp [insSorted, h]
    · simp only [insSorted, h, if_neg, Bool.not_eq_true, List.mem_cons, ih]
      tauto

/-- Membership is preserved by `sortStrs`. -/
theorem mem_sortStrs (a : String) (l : List String) : a ∈ sortStrs l ↔ a ∈ l := by
  induction l with
  | nil => simp [sortStrs]
  | cons y ys ih =>
    show a ∈ insSorted y (sortStrs ys) ↔ _
    rw [mem_insSorted, ih]
    simp

/-- Membership is preserved by `pySortedSet`. -/
theorem mem_pySortedSet (a : String) (l : List String) :
    a ∈ pySortedSet l ↔ a ∈ l := by
  rw [pySortedSet, mem_sortStrs, List.mem_dedup]

/-- A run without a successful `/schedule_set` never changes the stored
time strings. -/
theorem schedTimes_frozen (tzOK : String → Bool) (ops : List SchedOp) :
    ∀ s : Sched, ops.any validSetTimes = false →
      (runSchedOps tzOK s ops).openTime = s.openTime ∧
        (runSchedOps tzOK s ops).closeTime = s.closeTime := by
  induction ops with
  | nil => intro s _; exact ⟨rfl, rfl⟩
  | cons op rest ih =>
    intro s h
    rw [List.any_cons, Bool.or_eq_false_iff] at h
    have step : (applySchedOp tzOK s op).openTime = s.openTime ∧
        (applySchedOp tzOK s op).closeTime = s.closeTime := by
      cases op with
      | setTimes o c =>
        have hv := h.1
        simp only [validSetTimes, Bool.and_eq_false_iff] at hv
        rcases ho : parseHHMM o with _ | po <;> rcases hc : parseHHMM c with _ | pc <;>
          simp_all [applySchedOp]
      | setEnabled b => simp [applySchedOp]
      | setTz a => simp only [applySchedOp]; split <;> simp
    have tail := ih (applySchedOp tzOK s op) h.2
    rw [runSchedOps, List.foldl_cons]
    exact ⟨tail.1.trans step.1, tail.2.trans step.2⟩

/-- After a run containing at least one successful `/schedule_set`, both
stored time strings parse. -/
theorem schedTimes_valid_after (tzOK : String → Bool) (ops : List SchedOp) :
    ∀ s : Sched, ops.any validSetTimes = true →
      (parseHHMM (runSchedOps tzOK s ops).openTime).isSome = true ∧
        (parseHHMM (runSchedOps tzOK s ops).closeTime).isSome = true := by
  induction ops with
  | nil => intro s h; simp at h
  | cons op rest ih =>
    intro s h
    by_cases hr : rest.any validSetTimes = true
    · exact ih (applySchedOp tzOK s op) hr
    · have hop : validSetTimes op = true := by
        rw [List.any_cons, Bool.or_eq_true] at h
        tauto
      have hfr := schedTimes_frozen tzOK rest (applySchedOp tzOK s op)
        (by simpa using hr)
      have hstep : runSchedOps tzOK s (op :: rest) =
          runSchedOps tzOK (applySchedOp tzOK s op) rest := rfl
      rw [hstep, hfr.1, hfr.2]
      cases op with
      | setTimes o c =>
        simp only [validSetTimes, Bool.and_eq_true, Option.isSome_iff_exists] at hop
        obtain ⟨⟨po, hpo⟩, ⟨pc, hpc⟩⟩ := hop
        simp [applySchedOp, hpo, hpc]
      | setEnabled b => simp [validSetTimes] at hop
      | setTz a => simp [validSetTimes] at hop

/-- A plain group text message from an ordinary user: no media, no
annotations, sent by user 5 in chat -100. -/
def plainTextMsg (t : String) : Msg :=
  { chatId := -100
    fromUser := some 5
    senderChat := none
    text := some t
    caption := none
    entities := []
    captionEntities := []
    hasAudio := false
    hasVideo := false
    hasVoice := false
    hasVideoNote := false }

/-- C1: a non-exempt message that matches one of the earlier soft rules
(media, degenerate text, link, mention) and also contains a banned
phrase gets the verdict `delete`, never `deleteAndBan`: the soft checks
return before the banned-phrase check runs, so executing the verdict
attempts a delete and no ban. -/
theorem c1_soft_rules_preempt_ban (words : List String) (m : Msg)
    (hsoft : (mediaRule m || degenerateRule (text_of m) || linkRule m (text_of m) ||
        mentionRule m (text_of m)) = true)
    (hphrase : badwordRule words (text_of m) = true) :
    moderationVerdict words false m = .delete ∧
      moderationVerdict words false m ≠ .deleteAndBan ∧
      ∀ dF bF : Bool,
        execVerdict (moderationVerdict words false m) m.fromUser dF bF = ([.del], false) := by
  have hv : moderationVerdict words false m = .delete := by
    unfold moderationVerdict
    cases hm : mediaRule m <;> cases hd : degenerateRule (text_of m) <;>
      cases hl : linkRule m (text_of m) <;> cases hn : mentionRule m (text_of m) <;>
      simp_all
  refine ⟨hv, by rw [hv]; simp, fun dF bF => by rw [hv]; rfl⟩

/-- C1 witness: the text `see http://spam.example spam` matches both the
link rule and the banned phrase `spam`; verdict is `delete` only. -/
theorem c1_witness :
    moderationVerdict ["spam"] false (plainTextMsg "see http://spam.example spam") = .delete ∧
      moderationVerdict ["spam"] false (plainTextMsg "see http://spam.example spam") ≠
        .deleteAndBan ∧
      ∀ dF bF : Bool,
        execVerdict
            (moderationVerdict ["spam"] false (plainTextMsg "see http://spam.example spam"))
            (plainTextMsg "see http://spam.example spam").fromUser dF bF = ([.del], false) :=
  c1_soft_rules_preempt_ban ["spam"] (plainTextMsg "see http://spam.example spam")
    (by decide) (by decide)

/-- C2: the banned-phrase matcher is case-insensitive, treats a
whitespace/hyphen phrase as a literal substring and a single-token
phrase as a whole word: with phrases `{spam}` the text `buy SPAM now`
is delete-and-banned while `spammer` is allowed, and with phrases
`{bad word}` the text `this is a bad word here` is delete-and-banned. -/
theorem c2_matcher_scenarios :
    gateVerdict ["spam"] (plainTextMsg "buy SPAM now") (.ok "member") = .deleteAndBan ∧
      gateVerdict ["spam"] (plainTextMsg "spammer") (.ok "member") = .allow ∧
      gateVerdict ["bad word"] (plainTextMsg "this is a bad word here") (.ok "member") =
        .deleteAndBan := by
  refine ⟨by decide, by decide, by decide⟩

/-- C5: an exempt sender (chat admin/owner or anonymous chat post) is
always allowed regardless of content, and for a non-exempt sender the
rules run in the fixed order media, degenerate text, links, mentions,
banned phrase, the first match deciding the verdict. -/
theorem c5_exemption_and_rule_order (words : List String) (m : Msg) (tr : RoleLookup) :
    (is_chat_admin m.chatId m.fromUser m.senderChat tr = true →
        gateVerdict words m tr = .allow) ∧
    (is_chat_admin m.chatId m.fromUser m.senderChat tr = false →
      (mediaRule m = true → gateVerdict words m tr = .delete) ∧
      (mediaRule m = false → degenerateRule (text_of m) = true →
          gateVerdict words m tr = .delete) ∧
      (mediaRule m = false → degenerateRule (text_of m) = false →
          linkRule m (text_of m) = true → gateVerdict words m tr = .delete) ∧
      (mediaRule m = false → degenerateRule (text_of m) = false →
          linkRule m (text_of m) = false → mentionRule m (text_of m) = true →
          gateVerdict words m tr = .delete) ∧
      (mediaRule m = false → degenerateRule (text_of m) = false →
          linkRule m (text_of m) = false → mentionRule m (text_of m) = false →
          badwordRule words (text_of m) = true → gateVerdict words m tr = .deleteAndBan) ∧
      (mediaRule m = false → degenerateRule (text_of m) = false →
          linkRule m (text_of m) = false → mentionRule m (text_of m) = false →
          badwordRule words (text_of m) = false → gateVerdict words m tr = .allow)) := by
  refine ⟨fun hex => ?_, fun hex => ⟨fun h1 => ?_, fun h1 h2 => ?_, fun h1 h2 h3 => ?_,
    fun h1 h2 h3 h4 => ?_, fun h1 h2 h3 h4 h5 => ?_, fun h1 h2 h3 h4 h5 => ?_⟩⟩ <;>
    simp_all [gateVerdict, moderationVerdict]

/-- C5 witness: an anonymous-admin post with a banned phrase is allowed;
for a non-exempt sender a voice message is deleted. -/
theorem c5_witness :
    gateVerdict ["spam"]
        { plainTextMsg "spam" with senderChat := some (-100), fromUser := none } .err =
      .allow ∧
    gateVerdict ["spam"] { plainTextMsg "hello" with hasVoice := true } (.ok "member") =
      .delete := by
  constructor
  · exact (c5_exemption_and_rule_order ["spam"]
      { plainTextMsg "spam" with senderChat := some (-100), fromUser := none } .err).1
      (by decide)
  · exact (((c5_exemption_and_rule_order ["spam"]
      { plainTextMsg "hello" with hasVoice := true } (.ok "member")).2 (by decide)).1
      (by decide))

/-- C6: `is_chat_admin` is exempt for an anonymous-admin post (sender
chat equal to the chat itself), not exempt when no sender identity is
available, exempt exactly when a successful role lookup reports
administrator or creator, and not exempt on a lookup failure; being a
total function of the lookup outcome, it never raises. -/
theorem c6_is_chat_admin_cases (chatId : Int) (userId senderChatId : Option Int)
    (tr : RoleLookup) :
    (senderChatId = some chatId → chatId ≠ 0 →
        is_chat_admin chatId userId senderChatId tr = true) ∧
    (senderChatId = none → userId = none →
        is_chat_admin chatId userId senderChatId tr = false) ∧
    ((truthyInt senderChatId && senderChatId == some chatId) = false →
        truthyInt userId = false →
        is_chat_admin chatId userId senderChatId tr = false) ∧
    ((truthyInt senderChatId && senderChatId == some chatId) = false →
        truthyInt userId = true →
        (tr = .err → is_chat_admin chatId userId senderChatId tr = false) ∧
        (∀ st, tr = .ok st →
            (is_chat_admin chatId userId senderChatId tr = true ↔
              st = "administrator" ∨ st = "creator"))) := by
  refine ⟨fun hsc hnz => ?_, fun hsc hu => ?_, fun hna hu => ?_,
    fun hna hu => ⟨fun htr => ?_, fun st htr => ?_⟩⟩
  · simp [is_chat_admin, truthyInt, hsc, hnz]
  · simp [is_chat_admin, truthyInt, hsc, hu]
  · simp [is_chat_admin, hna, hu]
  · simp [is_chat_admin, hna, hu, htr]
  · subst htr
    simp [is_chat_admin, hna, hu, Bool.or_eq_true, beq_iff_eq]

/-- C6 witness: concrete instances of the four cases for chat -100. -/
theorem c6_witness :
    is_chat_admin (-100) none (some (-100)) .err = true ∧
    is_chat_admin (-100) none none .err = false ∧
    is_chat_admin (-100) (some 5) none .err = false ∧
    (is_chat_admin (-100) (some 5) none (.ok "creator") = true ↔
      "creator" = "administrator" ∨ "creator" = "creator") := by
  refine ⟨(c6_is_chat_admin_cases (-100) none (some (-100)) .err).1 rfl (by decide),
    (c6_is_chat_admin_cases (-100) none none .err).2.1 rfl rfl,
    ((c6_is_chat_admin_cases (-100) (some 5) none .err).2.2.2 (by decide) (by decide)).1 rfl,
    ((c6_is_chat_admin_cases (-100) (some 5) none (.ok "creator")).2.2.2 (by decide)
      (by decide)).2 "creator" rfl⟩

/-- C7: for each identity in a join event, a bot is banned together with
its recorded inviter and never restricted; a human is untouched when
the mute duration is zero; a successful administrator/creator lookup
skips the restriction while a failed lookup does not; any other human
is restricted with the RESTRICTED profile until now + minutes. -/
theorem c7_join_event_actions (minutes : Int) (inviterId : Option Int) (now : Int)
    (role : RoleLookup) (memberId : Int) :
    (∀ i, inviterId = some i → i ≠ 0 →
        processNewMember minutes inviterId now role memberId true =
          [.banUser memberId, .banUser i]) ∧
    (inviterId = none →
        processNewMember minutes inviterId now role memberId true = [.banUser memberId]) ∧
    (minutes = 0 → processNewMember minutes inviterId now role memberId false = []) ∧
    (minutes > 0 → (role = .ok "administrator" ∨ role = .ok "creator") →
        processNewMember minutes inviterId now role memberId false = []) ∧
    (minutes > 0 → role = .err →
        processNewMember minutes inviterId now role memberId false =
          [.restrictUser memberId MUTED_PERMS (now + minutes * 60)]) ∧
    (∀ st, minutes > 0 → role = .ok st → st ≠ "administrator" → st ≠ "creator" →
        processNewMember minutes inviterId now role memberId false =
          [.restrictUser memberId MUTED_PERMS (now + minutes * 60)]) := by
  refine ⟨fun i hi hnz => ?_, fun hi => ?_, fun h0 => ?_, fun hpos hrole => ?_,
    fun hpos hrole => ?_, fun st hpos hrole hs1 hs2 => ?_⟩
  · simp [processNewMember, hi, hnz]
  · simp [processNewMember, hi]
  · simp [processNewMember, h0]
  · rcases hrole with h | h <;> subst h <;> simp [processNewMember, hpos]
  · subst hrole; simp [processNewMember, hpos]
  · subst hrole
    simp [processNewMember, hpos, beq_iff_eq, hs1, hs2]

/-- C7 witness: with a 5-minute mute, a joining bot invited by user 7 is
banned with its inviter; a joining human whose role lookup fails is
restricted until now + 300 seconds; with the mute at 0 nothing happens. -/
theorem c7_witness :
    processNewMember 5 (some 7) 1000 .err 42 true = [.banUser 42, .banUser 7] ∧
    processNewMember 5 (some 7) 1000 .err 42 false =
      [.restrictUser 42 MUTED_PERMS 1300] ∧
    processNewMember 0 (some 7) 1000 .err 42 false = [] := by
  refine ⟨(c7_join_event_actions 5 (some 7) 1000 .err 42).1 7 rfl (by decide), ?_,
    (c7_join_event_actions 0 (some 7) 1000 .err 42).2.2.1 rfl⟩
  have h := (c7_join_event_actions 5 (some 7) 1000 .err 42).2.2.2.2.1 (by decide) rfl
  simpa using h

/-- C8: evaluation of the DeleteAndBan execution path.  With a sender
present, delete and ban are both attempted whatever the transport
failure flags say and nothing escapes the handler.  But for a message
with no `from_user` (the transport type allows it, and every other use
in the source guards it), the gate evaluates `message.from_user.id`
unguarded after the delete: the ban is never attempted and the error
escapes the handler. -/
theorem c8_ban_attempt_evaluation :
    (∀ dF bF : Bool,
        gateRun ["spam"] (plainTextMsg "spam is cheap") (.ok "member") dF bF =
          ([.del, .ban 5], false)) ∧
    gateVerdict ["spam"] { plainTextMsg "spam is cheap" with fromUser := none }
        (.ok "member") = .deleteAndBan ∧
    gateRun ["spam"] { plainTextMsg "spam is cheap" with fromUser := none }
        (.ok "member") false false = ([.del], true) := by
  refine ⟨by decide, by decide, by decide⟩

/-- C9: adding a phrase already present leaves the banned-phrase set
unchanged and the `added` report empty (the handler replies "nothing
new"); removing an absent phrase returns before mutating, leaving the
stored list literally unchanged with an empty `removed` report. -/
theorem c9_badword_idempotence (before : List String) (w : String) :
    (w ∈ before →
        (∀ x, x ∈ (addBadwords before [w]).1 ↔ x ∈ before) ∧
          (addBadwords before [w]).2 = []) ∧
    (w ∉ before → removeBadwords before [w] = (before, [])) := by
  constructor
  · intro hw
    constructor
    · intro x
      rw [addBadwords, mem_pySortedSet, List.mem_append]
      constructor
      · rintro (hx | hx)
        · exact hx
        · simp only [List.mem_singleton] at hx
          exact hx ▸ hw
      · exact fun hx => Or.inl hx
    · simp [addBadwords, pySortedSet, sortStrs, hw]
  · intro hw
    have hmem : ∀ b ∈ before, ([w].contains b) = false := by
      intro b hb
      simp only [List.contains_cons, List.contains_nil, Bool.or_false, beq_eq_false_iff_ne,
        ne_eq]
      intro hbw
      exact hw (hbw ▸ hb)
    have hf : before.filter (fun b => [w].contains b) = [] := by
      rw [List.filter_eq_nil_iff]
      intro b hb
      simp only [List.contains_cons, List.contains_nil, Bool.or_false, beq_iff_eq]
      exact fun hbw => hw (hbw ▸ hb)
    have hf2 : before.filter (fun b => !([w].contains b)) = before := by
      rw [List.filter_eq_self]
      intro b hb
      rw [hmem b hb]
      rfl
    rw [removeBadwords, hf, hf2]
    simp [pySortedSet, sortStrs]

/-- C9 witness: with the stored list `[spam]`, adding `spam` changes
nothing and reports nothing new; removing the absent `ham` returns the
list untouched and reports nothing removed. -/
theorem c9_witness :
    ("spam" ∈ (addBadwords ["spam"] ["spam"]).1 ↔ "spam" ∈ ["spam"]) ∧
    (addBadwords ["spam"] ["spam"]).2 = [] ∧
    removeBadwords ["spam"] ["ham"] = (["spam"], []) := by
  have h := (c9_badword_idempotence ["spam"] "spam").1 (by decide)
  refine ⟨h.1 "spam", h.2, (c9_badword_idempotence ["spam"] "ham").2 (by decide)⟩

/-- If both the raw text and the raw caption strip to the empty string,
the effective text is empty. -/
theorem text_of_empty (m : Msg) (htx : pyStrip (pyOrStr m.text "") = "")
    (hcp : pyStrip (pyOrStr m.caption "") = "") : text_of m = "" := by
  rcases ht : m.text with _ | s
  · rw [text_of, ht]
    exact hcp
  · rw [text_of, ht]
    by_cases hs : s = ""
    · simpa [pyOrStr, hs] using hcp
    · rw [ht] at htx
      simpa [pyOrStr, hs] using htx

/-- C10: a non-exempt message with no audio/video/voice/video-note, no
url / text_link / mention annotation, and text and caption stripping to
the empty string is allowed: no rule fires, the execution attempts no
delete and no ban, and the verdict is independent of the banned-phrase
set because the empty effective text short-circuits the matcher. -/
theorem c10_empty_message_allowed (words : List String) (m : Msg)
    (hmedia : mediaRule m = false)
    (hent : (allEntities m).any
        (fun e => e == .url || e == .textLink || e == .mention) = false)
    (htx : pyStrip (pyOrStr m.text "") = "")
    (hcp : pyStrip (pyOrStr m.caption "") = "") :
    moderationVerdict words false m = .allow ∧
      ∀ dF bF : Bool,
        execVerdict (moderationVerdict words false m) m.fromUser dF bF = ([], false) := by
  have ht : text_of m = "" := text_of_empty m htx hcp
  have hnone : ∀ e ∈ allEntities m, e ≠ .url ∧ e ≠ .textLink ∧ e ≠ .mention := by
    intro e he
    have := List.any_eq_false.mp hent e he
    simp only [Bool.or_eq_true, beq_iff_eq] at this
    tauto
  have hlink : linkRule m (text_of m) = false := by
    rw [linkRule, ht]
    simp only [ne_eq, not_true_eq_false, Bool.and_eq_false_iff, Bool.or_eq_false_iff]
    refine ⟨List.any_eq_false.mpr ?_, Or.inl (by simp)⟩
    intro e he
    have := hnone e he
    simp only [Bool.or_eq_true, beq_iff_eq]
    tauto
  have hment : mentionRule m (text_of m) = false := by
    rw [mentionRule, ht]
    simp only [Bool.or_eq_false_iff]
    refine ⟨List.any_eq_false.mpr ?_, by simp⟩
    intro e he
    have := hnone e he
    simp only [beq_iff_eq]
    tauto
  have hdeg : degenerateRule (text_of m) = false := by
    rw [degenerateRule, ht]
    simp
  have hbad : badwordRule words (text_of m) = false := by
    rw [badwordRule, ht]
    simp
  have hv : moderationVerdict words false m = .allow := by
    simp [moderationVerdict, hmedia, hdeg, hlink, hment, hbad]
  exact ⟨hv, fun dF bF => by rw [hv]; rfl⟩

/-- C10 witness: a caption-only message whose caption is whitespace is
allowed even with a non-empty phrase list, with no action attempted. -/
theorem c10_witness :
    moderationVerdict ["spam"] false
        { plainTextMsg "x" with text := none, caption := some "   " } = .allow ∧
      execVerdict
          (moderationVerdict ["spam"] false
            { plainTextMsg "x" with text := none, caption := some "   " })
          (some 5) true true = ([], false) := by
  have h := c10_empty_message_allowed ["spam"]
    { plainTextMsg "x" with text := none, caption := some "   " }
    (by decide) (by decide) (by decide) (by decide)
  exact ⟨h.1, h.2 true true⟩

/-- C3 counterexample: the claimed invariant "newbie mute minutes is
always in [0, 1440]" fails: loading a persisted document whose stored
value is the integer 5000 yields the reachable state 5000, above 1440 —
`load_config` replaces only non-integer or negative values, it never
applies the upper clamp. -/
theorem c3_counterexample :
    NmReachable 5000 ∧ ¬(0 ≤ (5000 : Int) ∧ (5000 : Int) ≤ 1440) := by
  constructor
  · have h := NmReachable.load (some (.jint 5000))
    have he : loadNm (some (.jint 5000)) = 5000 := by decide
    rwa [he] at h
  · decide

/-- C3 (amended): every reachable newbie-mute value is a non-negative
integer; the set operation lands in [0, 1440] whenever its argument
parses (and leaves the state unchanged otherwise), but loading merely
replaces a missing, non-integer or negative persisted value with 1 and
passes any non-negative integer through unclamped. -/
theorem c3_nm_invariant :
    (∀ n : Int, NmReachable n → 0 ≤ n) ∧
    (∀ cur : Int, ∀ arg : String, ∀ m : Int, pyInt (pyStrip arg) = some m →
        0 ≤ setNm cur arg ∧ setNm cur arg ≤ 1440) ∧
    (∀ n : Int, 0 ≤ n → loadNm (some (.jint n)) = n) := by
  refine ⟨?_, ?_, ?_⟩
  · intro n h
    induction h with
    | load v =>
      rcases v with _ | jv
      · norm_num [loadNm]
      · rcases jv with k | _
        · simp only [loadNm]
          split <;> omega
        · norm_num [loadNm]
    | set cur arg hcur ih =>
      rcases hp : pyInt (pyStrip arg) with _ | m
      · simpa [setNm, hp] using ih
      · simp only [setNm, hp]
        exact le_max_left 0 _
  · intro cur arg m hp
    refine ⟨by simp only [setNm, hp]; exact le_max_left 0 _, ?_⟩
    simp only [setNm, hp]
    exact max_le (by norm_num) (min_le_left _ _)
  · intro n hn
    simp only [loadNm]
    omega

/-- C3 witness: loading an absent field gives the in-range default 1,
and setting 100000 clamps to 1440. -/
theorem c3_witness :
    0 ≤ loadNm none ∧ 0 ≤ setNm 7 "100000" ∧ setNm 7 "100000" ≤ 1440 := by
  refine ⟨c3_nm_invariant.1 (loadNm none) (NmReachable.load none), ?_, ?_⟩
  · exact (c3_nm_invariant.2.1 7 "100000" 100000 (by decide)).1
  · exact (c3_nm_invariant.2.1 7 "100000" 100000 (by decide)).2

/-- C4: rescheduling is total (the parse failure is caught, an invalid
zone falls back to the default zone), the armed pair always carries the
currently stored times when they parse, and the 10:00 / 19:00 default
pair is used exactly in states where either stored time string is
malformed — which can only happen when no `/schedule_set` ever
succeeded in the run, i.e. the strings are still the unvalidated ones
from the loaded document, so no prior valid pair existed. -/
theorem c4_reschedule_fallback (tzOK : String → Bool) (init : Sched)
    (ops : List SchedOp) :
    ((runSchedOps tzOK init ops).enabled = false →
        rescheduleJobs tzOK (runSchedOps tzOK init ops) = none) ∧
    (∀ oh om ch cm : Nat, (runSchedOps tzOK init ops).enabled = true →
        parseHHMM (runSchedOps tzOK init ops).openTime = some (oh, om) →
        parseHHMM (runSchedOps tzOK init ops).closeTime = some (ch, cm) →
        rescheduleJobs tzOK (runSchedOps tzOK init ops) =
          some ⟨oh, om, ch, cm, getTz tzOK (runSchedOps tzOK init ops)⟩) ∧
    ((runSchedOps tzOK init ops).enabled = true →
        (parseHHMM (runSchedOps tzOK init ops).openTime = none ∨
          parseHHMM (runSchedOps tzOK init ops).closeTime = none) →
        rescheduleJobs tzOK (runSchedOps tzOK init ops) =
            some ⟨10, 0, 19, 0, getTz tzOK (runSchedOps tzOK init ops)⟩ ∧
          ops.any validSetTimes = false ∧
          (runSchedOps tzOK init ops).openTime = init.openTime ∧
          (runSchedOps tzOK init ops).closeTime = init.closeTime) ∧
    (∀ s : Sched, tzOK s.tz = false → getTz tzOK s = "Europe/Moscow") := by
  refine ⟨fun hdis => ?_, fun oh om ch cm hen hpo hpc => ?_, fun hen hbad => ?_,
    fun s htz => ?_⟩
  · simp [rescheduleJobs, hdis]
  · simp [rescheduleJobs, hen, hpo, hpc]
  · have hnv : ops.any validSetTimes = false := by
      by_contra hc
      have h1 : ops.any validSetTimes = true := by
        revert hc
        cases ops.any validSetTimes <;> simp
      have hv := schedTimes_valid_after tzOK ops init h1
      rcases hbad with h | h
      · rw [h] at hv
        exact absurd hv.1 (by simp)
      · rw [h] at hv
        exact absurd hv.2 (by simp)
    have hfr := schedTimes_frozen tzOK ops init hnv
    refine ⟨?_, hnv, hfr.1, hfr.2⟩
    rcases hbad with h | h
    · rcases hpc : parseHHMM (runSchedOps tzOK init ops).closeTime with _ | ⟨a, b⟩ <;>
        simp [rescheduleJobs, hen, h, hpc]
    · rcases hpo : parseHHMM (runSchedOps tzOK init ops).openTime with _ | ⟨a, b⟩ <;>
        simp [rescheduleJobs, hen, h, hpo]
  · simp [getTz, htz]

/-- C4 witness: a document loaded with the malformed open time `25:99`
and an unknown zone, with no commands run, arms the default pair
10:00 / 19:00 in the fallback zone. -/
theorem c4_witness :
    rescheduleJobs (fun t => t == "Europe/Moscow")
        (runSchedOps (fun t => t == "Europe/Moscow")
          ⟨true, "25:99", "19:00", "Mars/Base"⟩ []) =
      some ⟨10, 0, 19, 0, "Europe/Moscow"⟩ := by
  have h := (c4_reschedule_fallback (fun t => t == "Europe/Moscow")
    ⟨true, "25:99", "19:00", "Mars/Base"⟩ []).2.2.1 (by decide) (Or.inl (by decide))
  have hg : getTz (fun t => t == "Europe/Moscow")
      (runSchedOps (fun t => t == "Europe/Moscow")
        ⟨true, "25:99", "19:00", "Mars/Base"⟩ []) = "Europe/Moscow" := by decide
  rw [hg] at h
  exact h.1
